import Mathlib

/-!
Shallow embedding of `main.go` of go-license-finder, centred on the
function `GetDependencyLicense`, together with proofs of the specified
properties of the dependency-license resolution engine.

Modelling conventions:
* Go `float32` confidence values are embedded as `Rat`; the program only
  copies confidences around (and writes the constants `1.0` and the zero
  value `0`), so this embedding is exact.
* `time.Time` fields are never inspected by the resolution logic, so they
  are carried as opaque strings.
* Effects are made explicit parameters: the result of reading and parsing
  the known-licenses file (`readKnown`), the external analyzer
  `licensedb.Analyse` (`analyse`), and `ioutil.ReadFile` (`readFile`,
  returning either the file contents or an error message string).
* `log.Fatalf` / run termination is reflected in the `StepResult` type.
* The `select` race between the analysis goroutine and `time.After`
  is reflected by the boolean race outcome `timedOut`: `true` means the
  per-dependency timer fired before the goroutine delivered its summary.
-/

/-- Embeds the Go struct `License` (`main.go`, lines 44-50): a found license. -/
structure License where
  name : String
  path : String
  contents : String
  confidence : Rat
  error : String
deriving Repr, DecidableEq

/-- Embeds the anonymous `Update` sub-struct of `Dependency` (`main.go`, lines 59-63). -/
structure UpdateInfo where
  path : String
  version : String
  time : String
deriving Repr, DecidableEq

/-- Embeds the Go struct `Dependency` (`main.go`, lines 55-67): a Go mod
dependency as returned by `go list -m -u -json`, plus the `License` field
populated by this program. -/
structure Dependency where
  path : String
  version : String
  time : String
  update : UpdateInfo
  dir : String
  goMod : String
  license : License
deriving Repr, DecidableEq

/-- The zero value of the Go `License` struct: what JSON decoding leaves in
`Dependency.License` when the input object has no `License` key (as is the
case for all `go list -m -u -json` output). -/
def zeroLicense : License :=
  { name := "", path := "", contents := "", confidence := 0, error := "" }

/-- Embeds `licensedb.Match` of go-license-detector (fields `File`,
`Confidence`, `License`), as consumed by `main.go`. -/
structure LMatch where
  file : String
  confidence : Rat
  license : String
deriving Repr, DecidableEq

/-- Embeds `licensedb.Result` of go-license-detector (fields `Arg`,
`ErrStr`, `Matches`), as consumed by `main.go`. -/
structure LResult where
  arg : String
  errStr : String
  Matches : List LMatch
deriving Repr, DecidableEq

/-- Embeds the Go struct `KnownLicense` (`main.go`, lines 164-167). -/
structure KnownLicense where
  name : String
  path : String
deriving Repr, DecidableEq

/-- Embeds the Go struct `KnownLicenses` (`main.go`, lines 169-171). The Go
`map[string]KnownLicense` is embedded as an association list with unique
keys; `List.lookup` gives the map indexing operation. -/
structure KnownLicenses where
  licenses : List (String × KnownLicense)
deriving Repr, DecidableEq

/-- Embeds the Go struct `AnalyzeSummary` (`main.go`, lines 191-194). -/
structure AnalyzeSummary where
  result : LResult
  leavePathUntouched : Bool
deriving Repr, DecidableEq

/-- The process-wide flags read by `GetDependencyLicense` (`main.go`,
lines 69-74). `depTimeout` is the rendered form of the duration, used only
inside the timeout diagnostic. -/
structure Config where
  knownLicensePath : String
  errorIsFatal : Bool
  includeLicenseContents : Bool
  depTimeout : String
deriving Repr, DecidableEq

/-- Models Go `filepath.Join(a, b)` for two elements: empty elements are
dropped and the rest are joined with the path separator.  (`filepath.Join`
additionally runs `Clean` on the joined string; that normalization is not
modelled, as no claim depends on it.) -/
def filepathJoin (a b : String) : String :=
  if a = "" then b else if b = "" then a else a ++ "/" ++ b

/-- The outcome of running `GetDependencyLicense` on one record.
`emit` models `fmt.Println(string(bytes))` followed by a normal return
(processing continues with the next record); `emitFatal` models
`fmt.Println` followed by `log.Fatalf` (the record is printed first, then
the run terminates); `fatal` models `log.Fatalf` with no record printed. -/
inductive StepResult where
  | emit (out : Dependency) : StepResult
  | emitFatal (out : Dependency) (msg : String) : StepResult
  | fatal (msg : String) : StepResult
deriving Repr, DecidableEq

/-- The record printed by a step, if any.  Both `emit` and `emitFatal`
print their record (`fmt.Println` happens before the `errorIsFatal` check
in `main.go`, lines 300-304); `fatal` prints nothing. -/
def StepResult.emittedRecord : StepResult → Option Dependency
  | .emit out => some out
  | .emitFatal out _ => some out
  | .fatal _ => none

/-- Embeds the loop over the two candidate keys (`main.go`, line 217):
`dep.Path + "@" + dep.Version` is looked up first, then `dep.Path`. -/
def lookupKnown (known : KnownLicenses) (dep : Dependency) : Option KnownLicense :=
  [dep.path ++ "@" ++ dep.version, dep.path].findSome?
    (fun name => known.licenses.lookup name)

/-- Embeds the summary built on an override hit (`main.go`, lines 221-236):
a single synthetic match with confidence exactly 1, whose `File` is the
override entry's `Path`, with `LeavePathUntouched` set. -/
def overrideSummary (dep : Dependency) (kl : KnownLicense) : AnalyzeSummary :=
  { result :=
      { arg := dep.dir
        errStr := ""
        Matches := [{ file := kl.path, confidence := 1, license := kl.name }] }
    leavePathUntouched := true }

/-- Embeds the analyzer branch (`main.go`, lines 244-258): call
`licensedb.Analyse(dep.Dir)`; exactly one result is expected, otherwise
`log.Fatalf`. -/
def analyzeDir (analyse : String → List LResult) (dep : Dependency) :
    Except String AnalyzeSummary :=
  match analyse dep.dir with
  | [r] => .ok { result := r, leavePathUntouched := false }
  | rs =>
      .error ("Expected a single result for " ++ dep.dir ++ " but got "
        ++ toString rs.length)

/-- Embeds the body of the goroutine in `GetDependencyLicense` (`main.go`,
lines 200-259): consult the known-licenses registry when a config path is
set (fatally failing on a read error or an empty `licenses` map), fall
through to the analyzer on a miss.  An `.error` value is a `log.Fatalf`
message terminating the run. -/
def resolveSummary (cfg : Config) (readKnown : Except String KnownLicenses)
    (analyse : String → List LResult) (dep : Dependency) :
    Except String AnalyzeSummary :=
  if cfg.knownLicensePath ≠ "" then
    match readKnown with
    | .error e => .error ("Failed to read known license config file: " ++ e ++ "\n")
    | .ok known =>
        if known.licenses.length = 0 then
          .error (cfg.knownLicensePath
            ++ " contained to licenses! Did you put them under \"licenses:\"?")
        else
          match lookupKnown known dep with
          | some kl => .ok (overrideSummary dep kl)
          | none => analyzeDir analyse dep
  else
    analyzeDir analyse dep

/-- Embeds the content-inclusion step (`main.go`, lines 285-291): when
enabled, read the file at the verdict's path; on failure overwrite `Error`
with a read-failure message (and `Contents` becomes the empty string, Go's
`string(nil)`); on success store the contents. -/
def contentLoad (includeLicenseContents : Bool)
    (readFile : String → Except String String) (lic : License) : License :=
  if includeLicenseContents then
    match readFile lic.path with
    | .error e =>
        { lic with error := "Failed to open license file: " ++ e, contents := "" }
    | .ok b => { lic with contents := b }
  else lic

/-- Embeds the verdict-merging tail of `GetDependencyLicense` (`main.go`,
lines 269-292): copy the input record, store the summary's `ErrStr` into
the license `Error`, and if at least one match exists replace the whole
license by one built from the first match (joining the path with `Dir`
unless `LeavePathUntouched`), then run the content-inclusion step. -/
def buildVerdict (dep : Dependency) (summary : AnalyzeSummary)
    (includeLicenseContents : Bool) (readFile : String → Except String String) :
    Dependency :=
  let output := { dep with license := { dep.license with error := summary.result.errStr } }
  match summary.result.Matches with
  | [] => output
  | m :: _ =>
      let licensePath :=
        if summary.leavePathUntouched then m.file
        else filepathJoin output.dir m.file
      let lic : License :=
        { name := m.license
          path := licensePath
          contents := ""
          confidence := m.confidence
          error := "" }
      { output with license := contentLoad includeLicenseContents readFile lic }

/-- Embeds `GetDependencyLicense` (`main.go`, lines 197-305) for one
dependency record. `timedOut` is the outcome of the `select` race between
the analysis goroutine and `time.After(depTimeout)`: when the timer wins
the run terminates fatally with a timeout diagnostic; otherwise the
goroutine's summary (or its fatal error) decides, the verdict is merged,
the record is printed, and `errorIsFatal` may then terminate the run. -/
def getDependencyLicense (cfg : Config) (readKnown : Except String KnownLicenses)
    (analyse : String → List LResult) (readFile : String → Except String String)
    (dep : Dependency) (timedOut : Bool) : StepResult :=
  if timedOut then
    .fatal ("Timed out after " ++ cfg.depTimeout
      ++ " trying to get the license for: \x27" ++ dep.path ++ "\x27")
  else
    match resolveSummary cfg readKnown analyse dep with
    | .error e => .fatal e
    | .ok summary =>
        let output := buildVerdict dep summary cfg.includeLicenseContents readFile
        if cfg.errorIsFatal ∧ output.license.error ≠ "" then
          .emitFatal output ("Fatal error for \"" ++ dep.path ++ "\": "
            ++ output.license.error)
        else
          .emit output

/-! Concrete sample data, used to instantiate the theorems below. -/

/-- A sample `Update` sub-record (from the example input in `main.go`). -/
def sampleUpdate : UpdateInfo :=
  { path := "gopkg.in/yaml.v2", version := "v2.3.0", time := "2020-05-06T23:08:38Z" }

/-- A sample dependency record, as produced by `go list -m -u -json`
(no `License` key, hence the zero license value). -/
def sampleDep : Dependency :=
  { path := "gopkg.in/yaml.v2"
    version := "v2.2.2"
    time := "2018-11-15T11:05:04Z"
    update := sampleUpdate
    dir := "/src/yaml"
    goMod := "/mod/yaml.mod"
    license := zeroLicense }

/-- A sample override entry. -/
def sampleEntry : KnownLicense := { name := "MIT", path := "/opt/licenses/MIT.txt" }

/-- A sample registry holding both an exact `path@version` entry and a bare
`path` entry for `sampleDep`. -/
def sampleKnown : KnownLicenses :=
  { licenses :=
      [ ("gopkg.in/yaml.v2@v2.2.2", sampleEntry)
      , ("gopkg.in/yaml.v2", { name := "Apache-2.0", path := "/opt/licenses/APACHE.txt" }) ] }

/-- A configuration with an override file configured. -/
def sampleCfg : Config :=
  { knownLicensePath := "known.yaml"
    errorIsFatal := false
    includeLicenseContents := true
    depTimeout := "5s" }

/-- A configuration with no override file configured (the default). -/
def noOverrideCfg : Config :=
  { knownLicensePath := ""
    errorIsFatal := false
    includeLicenseContents := true
    depTimeout := "5s" }

/-- A sample analyzer match. -/
def sampleMatch : LMatch :=
  { file := "LICENSE", confidence := 92 / 100, license := "Apache-2.0" }

/-- A second, lower-ranked analyzer match. -/
def lowMatch : LMatch :=
  { file := "COPYING", confidence := 1 / 2, license := "MIT" }

/-- An analyzer returning one result set with two ranked matches. -/
def sampleAnalyse : String → List LResult :=
  fun d => [{ arg := d, errStr := "", Matches := [sampleMatch, lowMatch] }]

/-- An analyzer returning one result set with no matches and a diagnostic. -/
def emptyAnalyse : String → List LResult :=
  fun d => [{ arg := d, errStr := "no license file found", Matches := [] }]

/-- An analyzer returning one result set with a match and a diagnostic. -/
def noisyAnalyse : String → List LResult :=
  fun d => [{ arg := d, errStr := "deprecated layout", Matches := [sampleMatch] }]

/-- A file reader that always succeeds. -/
def okReadFile : String → Except String String := fun _ => .ok "license text"

/-- A file reader that always fails. -/
def badReadFile : String → Except String String :=
  fun _ => .error "open: no such file or directory"

/-- A dependency record whose input JSON already carried a `License` object
(the `Dependency` struct decodes such a key when present). -/
def preloadedDep : Dependency :=
  { sampleDep with license := { zeroLicense with name := "MIT-0" } }

/-- The summary `sampleAnalyse` delivers for `sampleDep`. -/
def sampleSummary : AnalyzeSummary :=
  { result := { arg := "/src/yaml", errStr := "", Matches := [sampleMatch, lowMatch] }
    leavePathUntouched := false }

/-- The summary `noisyAnalyse` delivers for `sampleDep`. -/
def noisySummary : AnalyzeSummary :=
  { result := { arg := "/src/yaml", errStr := "deprecated layout", Matches := [sampleMatch] }
    leavePathUntouched := false }

/-- The record printed for `sampleDep` when the analyzer finds
`sampleMatch` first and the license file reads successfully. -/
def sampleOut : Dependency :=
  { sampleDep with license :=
      { name := "Apache-2.0", path := "/src/yaml/LICENSE", contents := "license text"
        confidence := 92 / 100, error := "" } }

/-- A configuration with the error-is-fatal policy enabled. -/
def fatalCfg : Config :=
  { knownLicensePath := ""
    errorIsFatal := true
    includeLicenseContents := true
    depTimeout := "5s" }

/-! Helper lemmas shared by the claim theorems. -/

/-- On an empty registry the key loop finds nothing. -/
theorem lookupKnown_nil (dep : Dependency) :
    lookupKnown { licenses := [] } dep = none := rfl

/-- A registry hit short-circuits `resolveSummary` into the override
summary, regardless of the analyzer. -/
theorem resolveSummary_override (cfg : Config) (known : KnownLicenses)
    (analyse : String → List LResult) (dep : Dependency) (kl : KnownLicense)
    (hpath : cfg.knownLicensePath ≠ "")
    (hfind : lookupKnown known dep = some kl) :
    resolveSummary cfg (.ok known) analyse dep = .ok (overrideSummary dep kl) := by
  have hne : ¬ known.licenses.length = 0 := by
    intro h0
    have hnil : known.licenses = [] := List.length_eq_zero.mp h0
    rw [show known = ({ licenses := [] } : KnownLicenses) by cases known; simpa using hnil,
      lookupKnown_nil] at hfind
    exact Option.noConfusion hfind
  simp [resolveSummary, hpath, hne, hfind]

/-- When the goroutine delivers a summary, the step emits the merged
verdict, through `emitFatal` when the error-is-fatal policy fires. -/
theorem getDependencyLicense_ok (cfg : Config) (rk : Except String KnownLicenses)
    (analyse : String → List LResult) (readFile : String → Except String String)
    (dep : Dependency) (s : AnalyzeSummary)
    (h : resolveSummary cfg rk analyse dep = .ok s) :
    getDependencyLicense cfg rk analyse readFile dep false =
      if cfg.errorIsFatal ∧
          (buildVerdict dep s cfg.includeLicenseContents readFile).license.error ≠ "" then
        .emitFatal (buildVerdict dep s cfg.includeLicenseContents readFile)
          ("Fatal error for \"" ++ dep.path ++ "\": "
            ++ (buildVerdict dep s cfg.includeLicenseContents readFile).license.error)
      else
        .emit (buildVerdict dep s cfg.includeLicenseContents readFile) := by
  simp [getDependencyLicense, h]

/-- When the goroutine delivers a summary, the merged verdict record is
printed in every case. -/
theorem emittedRecord_ok (cfg : Config) (rk : Except String KnownLicenses)
    (analyse : String → List LResult) (readFile : String → Except String String)
    (dep : Dependency) (s : AnalyzeSummary)
    (h : resolveSummary cfg rk analyse dep = .ok s) :
    (getDependencyLicense cfg rk analyse readFile dep false).emittedRecord
      = some (buildVerdict dep s cfg.includeLicenseContents readFile) := by
  rw [getDependencyLicense_ok cfg rk analyse readFile dep s h]
  split <;> rfl

/-- When the goroutine ends in `log.Fatalf`, the step is fatal with its
message and nothing is printed. -/
theorem getDependencyLicense_err (cfg : Config) (rk : Except String KnownLicenses)
    (analyse : String → List LResult) (readFile : String → Except String String)
    (dep : Dependency) (e : String)
    (h : resolveSummary cfg rk analyse dep = .error e) :
    getDependencyLicense cfg rk analyse readFile dep false = .fatal e := by
  simp [getDependencyLicense, h]

/-- The content-inclusion step never changes the verdict's name, path or
confidence. -/
theorem contentLoad_preserves (ilc : Bool) (readFile : String → Except String String)
    (lic : License) :
    (contentLoad ilc readFile lic).name = lic.name
    ∧ (contentLoad ilc readFile lic).path = lic.path
    ∧ (contentLoad ilc readFile lic).confidence = lic.confidence := by
  unfold contentLoad
  cases ilc
  · simp
  · simp only [if_pos rfl]
    cases readFile lic.path <;> simp

/-- The verdict builder changes only the license field of the record. -/
theorem buildVerdict_frame (dep : Dependency) (s : AnalyzeSummary) (ilc : Bool)
    (readFile : String → Except String String) :
    (buildVerdict dep s ilc readFile).path = dep.path
    ∧ (buildVerdict dep s ilc readFile).version = dep.version
    ∧ (buildVerdict dep s ilc readFile).time = dep.time
    ∧ (buildVerdict dep s ilc readFile).update = dep.update
    ∧ (buildVerdict dep s ilc readFile).dir = dep.dir
    ∧ (buildVerdict dep s ilc readFile).goMod = dep.goMod := by
  unfold buildVerdict
  cases h : s.result.Matches <;> simp

/-- On an override hit the verdict is built from the override entry alone:
confidence 1, path verbatim, then the content-inclusion step. -/
theorem buildVerdict_override (dep : Dependency) (kl : KnownLicense) (ilc : Bool)
    (readFile : String → Except String String) :
    buildVerdict dep (overrideSummary dep kl) ilc readFile
      = { dep with license := (contentLoad ilc readFile
            { name := kl.name, path := kl.path, contents := ""
              confidence := 1, error := "" }) } := rfl

/-- With at least one match, the verdict is built from the first match
alone: the remaining matches and the summary's diagnostic are gone. -/
theorem buildVerdict_cons (dep : Dependency) (s : AnalyzeSummary) (ilc : Bool)
    (readFile : String → Except String String) (m : LMatch) (rest : List LMatch)
    (hm : s.result.Matches = m :: rest) :
    buildVerdict dep s ilc readFile
      = { dep with license := (contentLoad ilc readFile
          { name := m.license
            path := if s.leavePathUntouched then m.file else filepathJoin dep.dir m.file
            contents := "", confidence := m.confidence, error := "" }) } := by
  obtain ⟨⟨arg, errStr, Ms⟩, lpu⟩ := s
  have hm' : Ms = m :: rest := hm
  subst hm'
  rfl

/-- With zero matches, the verdict is the input record's license field with
only the error replaced by the summary's diagnostic. -/
theorem buildVerdict_nil (dep : Dependency) (s : AnalyzeSummary) (ilc : Bool)
    (readFile : String → Except String String)
    (hm : s.result.Matches = []) :
    buildVerdict dep s ilc readFile
      = { dep with license := { dep.license with error := s.result.errStr } } := by
  obtain ⟨⟨arg, errStr, Ms⟩, lpu⟩ := s
  have hm' : Ms = [] := hm
  subst hm'
  rfl

/-- The error field after the content-inclusion step, for a license whose
error was empty going in: still empty unless the read fails, in which case
it is the read-failure message. -/
theorem contentLoad_error (ilc : Bool) (readFile : String → Except String String)
    (lic : License) (hle : lic.error = "") :
    (ilc = false → (contentLoad ilc readFile lic).error = "")
    ∧ (ilc = true → ∀ b, readFile (contentLoad ilc readFile lic).path = .ok b →
        (contentLoad ilc readFile lic).error = "")
    ∧ (ilc = true → ∀ e, readFile (contentLoad ilc readFile lic).path = .error e →
        (contentLoad ilc readFile lic).error = "Failed to open license file: " ++ e) := by
  rw [(contentLoad_preserves ilc readFile lic).2.1]
  cases ilc
  · refine ⟨?_, ?_, ?_⟩
    · intro _
      simp [contentLoad, hle]
    · intro h
      exact Bool.noConfusion h
    · intro h
      exact Bool.noConfusion h
  · refine ⟨?_, ?_, ?_⟩
    · intro h
      exact Bool.noConfusion h
    · intro _ b hb
      simp [contentLoad, hb, hle]
    · intro _ e he
      simp [contentLoad, he]

/-! The claim theorems. -/

/-- C1: For every dependency record matching an override key in the
known-license registry (exact `path@version` or bare `path`), the printed
license verdict has confidence exactly 1, its evidence path equals the
override entry's path verbatim (never joined with the record's source
directory), and the analyzer is never invoked for that record: the step's
outcome is the same for any two analyzers. -/
theorem override_verdict (cfg : Config) (known : KnownLicenses)
    (analyse analyse' : String → List LResult)
    (readFile : String → Except String String) (dep : Dependency) (kl : KnownLicense)
    (hpath : cfg.knownLicensePath ≠ "")
    (hfind : lookupKnown known dep = some kl) :
    ((getDependencyLicense cfg (.ok known) analyse readFile dep false).emittedRecord.isSome
        = true
      ∧ ∀ out : Dependency,
          (getDependencyLicense cfg (.ok known) analyse readFile dep false).emittedRecord
            = some out →
          out.license.confidence = 1 ∧ out.license.path = kl.path
            ∧ out.license.name = kl.name)
    ∧ ∀ t : Bool,
        getDependencyLicense cfg (.ok known) analyse readFile dep t
          = getDependencyLicense cfg (.ok known) analyse' readFile dep t := by
  have hres := resolveSummary_override cfg known analyse dep kl hpath hfind
  have hres' := resolveSummary_override cfg known analyse' dep kl hpath hfind
  have hrec := emittedRecord_ok cfg (.ok known) analyse readFile dep _ hres
  refine ⟨⟨?_, ?_⟩, ?_⟩
  · rw [hrec]
    rfl
  · intro out hout
    rw [hrec] at hout
    obtain rfl := Option.some.inj hout
    rw [buildVerdict_override]
    refine ⟨?_, ?_, ?_⟩ <;> simp [contentLoad_preserves]
  · intro t
    cases t
    · rw [getDependencyLicense_ok cfg (.ok known) analyse readFile dep _ hres,
        getDependencyLicense_ok cfg (.ok known) analyse' readFile dep _ hres']
    · rfl

/-- Witness for C1: the sample registry hit on the sample dependency. -/
theorem override_verdict_witness :
    sampleCfg.knownLicensePath ≠ ""
    ∧ lookupKnown sampleKnown sampleDep = some sampleEntry
    ∧ (getDependencyLicense sampleCfg (.ok sampleKnown) sampleAnalyse okReadFile
        sampleDep false).emittedRecord.isSome = true :=
  ⟨by decide, by decide,
    (override_verdict sampleCfg sampleKnown sampleAnalyse emptyAnalyse okReadFile
      sampleDep sampleEntry (by decide) (by decide)).1.1⟩

/-- C4: registry lookup precedence: the key `path@version` is tried first
and wins when present (even when the bare key is also present); the bare
`path` key decides only when the exact key is absent; when both are absent
the lookup is not-found and `resolveSummary` falls through to the
analyzer. -/
theorem lookup_precedence (known : KnownLicenses) (dep : Dependency) :
    (∀ k1 : KnownLicense,
        known.licenses.lookup (dep.path ++ "@" ++ dep.version) = some k1 →
        lookupKnown known dep = some k1)
    ∧ (known.licenses.lookup (dep.path ++ "@" ++ dep.version) = none →
        lookupKnown known dep = known.licenses.lookup dep.path)
    ∧ (known.licenses.lookup (dep.path ++ "@" ++ dep.version) = none →
       known.licenses.lookup dep.path = none →
        lookupKnown known dep = none
        ∧ ∀ (cfg : Config) (analyse : String → List LResult),
            known.licenses ≠ [] →
            resolveSummary cfg (.ok known) analyse dep = analyzeDir analyse dep) := by
  refine ⟨?_, ?_, ?_⟩
  · intro k1 h1
    simp [lookupKnown, List.findSome?_cons, h1]
  · intro h1
    simp only [lookupKnown, List.findSome?_cons, h1]
    cases h2 : known.licenses.lookup dep.path <;>
      simp [List.findSome?_cons, List.findSome?_nil, h2]
  · intro h1 h2
    have hlk : lookupKnown known dep = none := by
      simp [lookupKnown, List.findSome?_cons, List.findSome?_nil, h1, h2]
    refine ⟨hlk, ?_⟩
    intro cfg analyse hne
    by_cases hp : cfg.knownLicensePath = ""
    · simp [resolveSummary, hp]
    · have hlen : ¬ known.licenses.length = 0 := by
        intro h0
        exact hne (List.length_eq_zero.mp h0)
      simp [resolveSummary, hp, hlen, hlk]

/-- Witness for C4: the sample registry holds both the exact and the bare
key for the sample dependency, and the exact entry wins. -/
theorem lookup_precedence_witness :
    sampleKnown.licenses.lookup (sampleDep.path ++ "@" ++ sampleDep.version)
      = some sampleEntry
    ∧ lookupKnown sampleKnown sampleDep = some sampleEntry :=
  ⟨by decide, (lookup_precedence sampleKnown sampleDep).1 sampleEntry (by decide)⟩

/-- C8: when the per-dependency timer wins the race against the analysis
goroutine, the run terminates fatally with the timeout diagnostic and no
record is printed for that dependency. -/
theorem timeout_fatal_no_emission (cfg : Config) (rk : Except String KnownLicenses)
    (analyse : String → List LResult) (readFile : String → Except String String)
    (dep : Dependency) :
    getDependencyLicense cfg rk analyse readFile dep true
      = .fatal ("Timed out after " ++ cfg.depTimeout
          ++ " trying to get the license for: \x27" ++ dep.path ++ "\x27")
    ∧ (getDependencyLicense cfg rk analyse readFile dep true).emittedRecord = none :=
  ⟨rfl, rfl⟩

/-- C10: when an override file is configured and parses to an empty
`licenses` mapping, resolving any dependency terminates the run fatally,
and the analyzer is never consulted: the step's outcome is the same for
any two analyzers. -/
theorem empty_registry_fatal (cfg : Config) (known : KnownLicenses)
    (readFile : String → Except String String) (dep : Dependency)
    (hpath : cfg.knownLicensePath ≠ "") (hempty : known.licenses = []) :
    (∀ analyse : String → List LResult,
        getDependencyLicense cfg (.ok known) analyse readFile dep false
          = .fatal (cfg.knownLicensePath
              ++ " contained to licenses! Did you put them under \"licenses:\"?"))
    ∧ ∀ (analyse analyse' : String → List LResult) (t : Bool),
        getDependencyLicense cfg (.ok known) analyse readFile dep t
          = getDependencyLicense cfg (.ok known) analyse' readFile dep t := by
  have hres : ∀ analyse : String → List LResult,
      resolveSummary cfg (.ok known) analyse dep
        = .error (cfg.knownLicensePath
            ++ " contained to licenses! Did you put them under \"licenses:\"?") := by
    intro analyse
    simp [resolveSummary, hpath, hempty]
  constructor
  · intro analyse
    exact getDependencyLicense_err cfg (.ok known) analyse readFile dep _ (hres analyse)
  · intro analyse analyse' t
    cases t
    · rw [getDependencyLicense_err cfg (.ok known) analyse readFile dep _ (hres analyse),
        getDependencyLicense_err cfg (.ok known) analyse' readFile dep _ (hres analyse')]
    · rfl

/-- Witness for C10: an empty parsed registry with the sample configuration
is fatal for the sample dependency. -/
theorem empty_registry_fatal_witness :
    sampleCfg.knownLicensePath ≠ ""
    ∧ ({ licenses := [] } : KnownLicenses).licenses = []
    ∧ getDependencyLicense sampleCfg (.ok { licenses := [] }) sampleAnalyse okReadFile
        sampleDep false
      = .fatal (sampleCfg.knownLicensePath
          ++ " contained to licenses! Did you put them under \"licenses:\"?") :=
  ⟨by decide, rfl,
    (empty_registry_fatal sampleCfg { licenses := [] } okReadFile sampleDep
      (by decide) rfl).1 sampleAnalyse⟩

/-- C2: a dependency resolved through the analyzer whose single result set
contains at least one match is printed with evidence path equal to the
join of the record's source directory with the first match's evidence
file, with the first match's name and confidence; the remaining matches do
not appear anywhere in the printed record. -/
theorem analyzer_first_match (cfg : Config) (rk : Except String KnownLicenses)
    (analyse : String → List LResult) (readFile : String → Except String String)
    (dep : Dependency) (r : LResult) (m : LMatch) (rest : List LMatch)
    (hs : resolveSummary cfg rk analyse dep
      = .ok { result := r, leavePathUntouched := false })
    (hm : r.Matches = m :: rest) :
    (getDependencyLicense cfg rk analyse readFile dep false).emittedRecord
      = some { dep with license := (contentLoad cfg.includeLicenseContents readFile
          { name := m.license, path := filepathJoin dep.dir m.file, contents := ""
            confidence := m.confidence, error := "" }) }
    ∧ ∀ out : Dependency,
        (getDependencyLicense cfg rk analyse readFile dep false).emittedRecord
          = some out →
        out.license.name = m.license
        ∧ out.license.path = filepathJoin dep.dir m.file
        ∧ out.license.confidence = m.confidence := by
  have hrec := emittedRecord_ok cfg rk analyse readFile dep _ hs
  have hb := buildVerdict_cons dep { result := r, leavePathUntouched := false }
    cfg.includeLicenseContents readFile m rest hm
  simp only [Bool.false_eq_true, if_false] at hb
  rw [hb] at hrec
  refine ⟨hrec, ?_⟩
  intro out hout
  rw [hrec] at hout
  obtain rfl := Option.some.inj hout
  refine ⟨?_, ?_, ?_⟩ <;> simp [contentLoad_preserves]

/-- Witness for C2: the sample analyzer result on the sample dependency. -/
theorem analyzer_first_match_witness :
    resolveSummary noOverrideCfg (.ok { licenses := [] }) sampleAnalyse sampleDep
      = .ok sampleSummary
    ∧ sampleSummary.result.Matches = sampleMatch :: [lowMatch]
    ∧ (getDependencyLicense noOverrideCfg (.ok { licenses := [] }) sampleAnalyse okReadFile
        sampleDep false).emittedRecord
      = some { sampleDep with license := (contentLoad noOverrideCfg.includeLicenseContents
          okReadFile
          { name := sampleMatch.license, path := filepathJoin sampleDep.dir sampleMatch.file
            contents := "", confidence := sampleMatch.confidence, error := "" }) } :=
  ⟨rfl, rfl,
    (analyzer_first_match noOverrideCfg (.ok { licenses := [] }) sampleAnalyse okReadFile
      sampleDep sampleSummary.result sampleMatch [lowMatch] rfl rfl).1⟩

/-- C3 counterexample: a dependency record whose input JSON already carried
a `License` object (here with name "MIT-0") is printed, on an analyzer
result with zero matches, with that pre-existing name instead of an empty
one — the code only overwrites the error field in that branch. -/
theorem zero_matches_name_leak :
    emptyAnalyse preloadedDep.dir
      = [{ arg := preloadedDep.dir, errStr := "no license file found", Matches := [] }]
    ∧ (getDependencyLicense noOverrideCfg (.ok { licenses := [] }) emptyAnalyse okReadFile
        preloadedDep false).emittedRecord
      = some { preloadedDep with license :=
          { name := "MIT-0", path := "", contents := "", confidence := 0
            error := "no license file found" } }
    ∧ ("MIT-0" : String) ≠ "" :=
  ⟨rfl, rfl, by decide⟩

/-- C3 (amended): for a dependency record whose input license field is the
zero value (as for every record produced by `go list -m -u -json`), an
analyzer resolution with zero matches is printed with empty name, empty
evidence path, empty contents, confidence 0, and the analyzer's diagnostic
as the error; in particular when that error is non-empty and no match was
found, name and evidence path are empty. -/
theorem zero_matches_verdict (cfg : Config) (rk : Except String KnownLicenses)
    (analyse : String → List LResult) (readFile : String → Except String String)
    (dep : Dependency) (r : LResult)
    (hzero : dep.license = zeroLicense)
    (hs : resolveSummary cfg rk analyse dep
      = .ok { result := r, leavePathUntouched := false })
    (hm : r.Matches = []) :
    (getDependencyLicense cfg rk analyse readFile dep false).emittedRecord
      = some { dep with license := { zeroLicense with error := r.errStr } }
    ∧ ∀ out : Dependency,
        (getDependencyLicense cfg rk analyse readFile dep false).emittedRecord
          = some out →
        out.license.name = "" ∧ out.license.path = "" ∧ out.license.confidence = 0
        ∧ out.license.contents = "" ∧ out.license.error = r.errStr := by
  have hrec := emittedRecord_ok cfg rk analyse readFile dep _ hs
  have hb := buildVerdict_nil dep { result := r, leavePathUntouched := false }
    cfg.includeLicenseContents readFile hm
  rw [hzero] at hb
  rw [hb] at hrec
  refine ⟨hrec, ?_⟩
  intro out hout
  rw [hrec] at hout
  obtain rfl := Option.some.inj hout
  refine ⟨rfl, rfl, rfl, rfl, rfl⟩

/-- Witness for C3 (amended): the empty-result analyzer on the sample
dependency. -/
theorem zero_matches_verdict_witness :
    sampleDep.license = zeroLicense
    ∧ resolveSummary noOverrideCfg (.ok { licenses := [] }) emptyAnalyse sampleDep
      = .ok { result := { arg := "/src/yaml", errStr := "no license file found"
                          Matches := [] }
              leavePathUntouched := false }
    ∧ (getDependencyLicense noOverrideCfg (.ok { licenses := [] }) emptyAnalyse okReadFile
        sampleDep false).emittedRecord
      = some { sampleDep with license :=
          { zeroLicense with error := "no license file found" } } :=
  ⟨rfl, rfl,
    (zero_matches_verdict noOverrideCfg (.ok { licenses := [] }) emptyAnalyse okReadFile
      sampleDep { arg := "/src/yaml", errStr := "no license file found", Matches := [] }
      rfl rfl rfl).1⟩

/-- C5: when content inclusion is enabled, a match exists, and reading the
file at the verdict's evidence path fails, the printed verdict's error is
the read-failure message while name, evidence path and confidence keep the
first match's values (and the record is printed: `emittedRecord` is
`some`). -/
theorem read_failure_preserves_match (cfg : Config) (rk : Except String KnownLicenses)
    (analyse : String → List LResult) (readFile : String → Except String String)
    (dep : Dependency) (s : AnalyzeSummary) (m : LMatch) (rest : List LMatch)
    (licensePath e : String)
    (hs : resolveSummary cfg rk analyse dep = .ok s)
    (hm : s.result.Matches = m :: rest)
    (hilc : cfg.includeLicenseContents = true)
    (hlp : licensePath
      = if s.leavePathUntouched then m.file else filepathJoin dep.dir m.file)
    (hread : readFile licensePath = .error e) :
    (getDependencyLicense cfg rk analyse readFile dep false).emittedRecord
      = some { dep with license :=
          { name := m.license, path := licensePath, contents := ""
            confidence := m.confidence
            error := "Failed to open license file: " ++ e } } := by
  have hrec := emittedRecord_ok cfg rk analyse readFile dep _ hs
  have hb := buildVerdict_cons dep s cfg.includeLicenseContents readFile m rest hm
  rw [← hlp] at hb
  rw [hb, hilc] at hrec
  rw [hrec]
  simp [contentLoad, hread]

/-- Witness for C5: the failing reader on the sample analyzer match. -/
theorem read_failure_preserves_match_witness :
    resolveSummary noOverrideCfg (.ok { licenses := [] }) sampleAnalyse sampleDep
      = .ok sampleSummary
    ∧ sampleSummary.result.Matches = sampleMatch :: [lowMatch]
    ∧ noOverrideCfg.includeLicenseContents = true
    ∧ badReadFile (filepathJoin sampleDep.dir sampleMatch.file)
      = .error "open: no such file or directory"
    ∧ (getDependencyLicense noOverrideCfg (.ok { licenses := [] }) sampleAnalyse badReadFile
        sampleDep false).emittedRecord
      = some { sampleDep with license :=
          { name := sampleMatch.license
            path := filepathJoin sampleDep.dir sampleMatch.file
            contents := ""
            confidence := sampleMatch.confidence
            error := "Failed to open license file: " ++ "open: no such file or directory" } } :=
  ⟨rfl, rfl, rfl, rfl,
    read_failure_preserves_match noOverrideCfg (.ok { licenses := [] }) sampleAnalyse
      badReadFile sampleDep sampleSummary sampleMatch [lowMatch]
      (filepathJoin sampleDep.dir sampleMatch.file) "open: no such file or directory"
      rfl rfl rfl rfl rfl⟩

/-- C6: with the error-is-fatal policy enabled and a non-empty final error
the step terminates the run fatally, but carries the printed record
(`emitFatal` prints before `log.Fatalf`); with the policy disabled the
very same record is printed and processing continues (`emit`). -/
theorem error_is_fatal_policy (cfg : Config) (rk : Except String KnownLicenses)
    (analyse : String → List LResult) (readFile : String → Except String String)
    (dep : Dependency) (s : AnalyzeSummary)
    (hs : resolveSummary cfg rk analyse dep = .ok s) :
    (cfg.errorIsFatal = true →
      (buildVerdict dep s cfg.includeLicenseContents readFile).license.error ≠ "" →
      getDependencyLicense cfg rk analyse readFile dep false
        = .emitFatal (buildVerdict dep s cfg.includeLicenseContents readFile)
            ("Fatal error for \"" ++ dep.path ++ "\": "
              ++ (buildVerdict dep s cfg.includeLicenseContents readFile).license.error)
      ∧ (getDependencyLicense cfg rk analyse readFile dep false).emittedRecord
        = some (buildVerdict dep s cfg.includeLicenseContents readFile))
    ∧ (cfg.errorIsFatal = false →
        getDependencyLicense cfg rk analyse readFile dep false
          = .emit (buildVerdict dep s cfg.includeLicenseContents readFile)) := by
  rw [getDependencyLicense_ok cfg rk analyse readFile dep s hs]
  constructor
  · intro hf he
    rw [if_pos ⟨hf, he⟩]
    exact ⟨rfl, rfl⟩
  · intro hf
    rw [if_neg]
    rintro ⟨h1, _⟩
    rw [hf] at h1
    exact Bool.noConfusion h1

/-- Witness for C6: zero matches with a diagnostic under the fatal policy:
the record is carried by the fatal outcome. -/
theorem error_is_fatal_policy_witness :
    resolveSummary fatalCfg (.ok { licenses := [] }) emptyAnalyse sampleDep
      = .ok { result := { arg := "/src/yaml", errStr := "no license file found"
                          Matches := [] }
              leavePathUntouched := false }
    ∧ fatalCfg.errorIsFatal = true
    ∧ (getDependencyLicense fatalCfg (.ok { licenses := [] }) emptyAnalyse okReadFile
        sampleDep false).emittedRecord
      = some (buildVerdict sampleDep
          { result := { arg := "/src/yaml", errStr := "no license file found"
                        Matches := [] }
            leavePathUntouched := false }
          fatalCfg.includeLicenseContents okReadFile) :=
  ⟨rfl, rfl,
    ((error_is_fatal_policy fatalCfg (.ok { licenses := [] }) emptyAnalyse okReadFile
        sampleDep
        { result := { arg := "/src/yaml", errStr := "no license file found", Matches := [] }
          leavePathUntouched := false }
        rfl).1 rfl (by decide)).2⟩

/-- C7: every record the step prints carries the input record's
non-license fields (path, version, declared time, update sub-record,
source directory, module descriptor path) unchanged; only the license
field differs. -/
theorem emitted_frame (cfg : Config) (rk : Except String KnownLicenses)
    (analyse : String → List LResult) (readFile : String → Except String String)
    (dep : Dependency) (t : Bool) (out : Dependency)
    (hout : (getDependencyLicense cfg rk analyse readFile dep t).emittedRecord
      = some out) :
    out.path = dep.path ∧ out.version = dep.version ∧ out.time = dep.time
    ∧ out.update = dep.update ∧ out.dir = dep.dir ∧ out.goMod = dep.goMod := by
  cases t
  · cases hres : resolveSummary cfg rk analyse dep with
    | error e =>
        rw [getDependencyLicense_err cfg rk analyse readFile dep e hres] at hout
        exact Option.noConfusion hout
    | ok s =>
        rw [emittedRecord_ok cfg rk analyse readFile dep s hres] at hout
        obtain rfl := Option.some.inj hout
        exact buildVerdict_frame dep s cfg.includeLicenseContents readFile
  · exact Option.noConfusion hout

/-- Witness for C7: the concrete record printed for the sample analyzer
run carries the sample dependency's fields. -/
theorem emitted_frame_witness :
    (getDependencyLicense noOverrideCfg (.ok { licenses := [] }) sampleAnalyse okReadFile
        sampleDep false).emittedRecord = some sampleOut
    ∧ sampleOut.path = sampleDep.path ∧ sampleOut.dir = sampleDep.dir :=
  ⟨rfl,
    (emitted_frame noOverrideCfg (.ok { licenses := [] }) sampleAnalyse okReadFile
      sampleDep false sampleOut rfl).1,
    (emitted_frame noOverrideCfg (.ok { licenses := [] }) sampleAnalyse okReadFile
      sampleDep false sampleOut rfl).2.2.2.2.1⟩

/-- C9: when the analyzer delivers at least one match together with a
(non-empty) diagnostic, the diagnostic is discarded: the printed verdict's
error field is empty when content inclusion is off or the content read
succeeds, and is the read-failure message (never the diagnostic) when the
read fails. -/
theorem diagnostic_discarded (cfg : Config) (rk : Except String KnownLicenses)
    (analyse : String → List LResult) (readFile : String → Except String String)
    (dep : Dependency) (s : AnalyzeSummary) (m : LMatch) (rest : List LMatch)
    (hs : resolveSummary cfg rk analyse dep = .ok s)
    (hm : s.result.Matches = m :: rest)
    (_hd : s.result.errStr ≠ "") :
    ∀ out : Dependency,
      (getDependencyLicense cfg rk analyse readFile dep false).emittedRecord
        = some out →
      (cfg.includeLicenseContents = false → out.license.error = "")
      ∧ (cfg.includeLicenseContents = true →
          ∀ b, readFile out.license.path = .ok b → out.license.error = "")
      ∧ (cfg.includeLicenseContents = true →
          ∀ e, readFile out.license.path = .error e →
            out.license.error = "Failed to open license file: " ++ e) := by
  intro out hout
  rw [emittedRecord_ok cfg rk analyse readFile dep s hs,
    buildVerdict_cons dep s cfg.includeLicenseContents readFile m rest hm] at hout
  obtain rfl := Option.some.inj hout
  exact contentLoad_error cfg.includeLicenseContents readFile _ rfl

/-- Witness for C9: the analyzer match accompanied by the diagnostic
"deprecated layout" yields an empty error field. -/
theorem diagnostic_discarded_witness :
    resolveSummary noOverrideCfg (.ok { licenses := [] }) noisyAnalyse sampleDep
      = .ok noisySummary
    ∧ noisySummary.result.Matches = sampleMatch :: []
    ∧ noisySummary.result.errStr ≠ ""
    ∧ (getDependencyLicense noOverrideCfg (.ok { licenses := [] }) noisyAnalyse okReadFile
        sampleDep false).emittedRecord = some sampleOut
    ∧ sampleOut.license.error = "" :=
  ⟨rfl, rfl, by decide, rfl,
    (diagnostic_discarded noOverrideCfg (.ok { licenses := [] }) noisyAnalyse okReadFile
      sampleDep noisySummary sampleMatch [] rfl rfl (by decide) sampleOut rfl).2.1
      rfl "license text" rfl⟩
